import Mathlib

/-!
# A shallow embedding of the `arse` site engine's configuration subsystem

This file embeds the configuration lifecycle and content-path resolution
subsystem of the `arse` Rust crate (files `src/common.rs`, `src/config.rs`)
and proves/refutes the specification's claims about it.

Modelling conventions:
* A Rust `String`/`&str` is modelled as `List Char` (`Str` below); Rust
  strings are sequences of Unicode scalar values, exactly what `List Char`
  is.  Byte-wise UTF-8 string order coincides with scalar-value order, so
  lexical comparisons are modelled on scalar values.
* Filesystem side effects are made explicit: directory creation becomes the
  ordered list of paths passed to `create_dir_all`, and a file write becomes
  a function from the previous contents of the destination to its new
  contents (`str_to_ro_file` takes the old contents as an `Option Str`,
  `none` meaning the file did not exist).
* Fallible operations return `Except Str` / `Option`.
-/

namespace Arse

/-- Rust strings are modelled as lists of Unicode scalar values. -/
abbrev Str := List Char

/-! ## Character classes (`src/common.rs`, `src/config.rs`)

`char::is_whitespace` in Rust tests the Unicode `White_Space` property.
The code points carrying that property are listed explicitly. -/

/-- The Unicode `White_Space` code points: Rust's `char::is_whitespace`. -/
def rustIsWhitespace (c : Char) : Bool :=
  decide (c.toNat = 0x9 ∨ c.toNat = 0xA ∨ c.toNat = 0xB ∨ c.toNat = 0xC ∨
    c.toNat = 0xD ∨ c.toNat = 0x20 ∨ c.toNat = 0x85 ∨ c.toNat = 0xA0 ∨
    c.toNat = 0x1680 ∨ (0x2000 ≤ c.toNat ∧ c.toNat ≤ 0x200A) ∨
    c.toNat = 0x2028 ∨ c.toNat = 0x2029 ∨ c.toNat = 0x202F ∨
    c.toNat = 0x205F ∨ c.toNat = 0x3000)

/-- Rust `char::to_ascii_lowercase`: `A`–`Z` shifted by 32, all else kept. -/
def toAsciiLower (c : Char) : Char :=
  if 65 ≤ c.toNat ∧ c.toNat ≤ 90 then Char.ofNat (c.toNat + 32) else c

/-- `slugify` (`src/common.rs:109`):
`topic.to_ascii_lowercase().replace(char::is_whitespace, "-")`.
`str::to_ascii_lowercase` lower-cases character-wise; `replace` with the
`char::is_whitespace` pattern substitutes each matching character by `"-"`,
one for one. -/
def slugify (topic : Str) : Str :=
  (topic.map toAsciiLower).map (fun c => if rustIsWhitespace c then '-' else c)

/-! ## Trimming and input reading (`src/config.rs`) -/

/-- Rust `str::trim_start_matches(char::is_whitespace)`. -/
def trimStart (s : Str) : Str := s.dropWhile rustIsWhitespace

/-- Rust `str::trim_end_matches(char::is_whitespace)`. -/
def trimEnd (s : Str) : Str := (s.reverse.dropWhile rustIsWhitespace).reverse

/-- `buf.trim_start_matches(char::is_whitespace).trim_end_matches(char::is_whitespace)`
as used by `get_input` (`src/config.rs:102`). -/
def trimWs (s : Str) : Str := trimEnd (trimStart s)

/-- `BufRead::read_line` on an in-memory buffer: consumes up to and
including the first `'\n'` (or the whole remaining buffer at end of
input) and returns the consumed line together with the rest. -/
def read_line : Str → Str × Str
  | [] => ([], [])
  | c :: rest =>
    if c = '\n' then ([c], rest)
    else
      let p := read_line rest
      (c :: p.1, p.2)

/-- `get_input` (`src/config.rs:97`): prints a prompt (pure model: elided),
reads one line, and trims surrounding whitespace.  Reading from a finite
in-memory buffer never fails, so the model is total. -/
def get_input (input : Str) : Str × Str :=
  let p := read_line input
  (trimWs p.1, p.2)

/-- `csv_to_vec` (`src/config.rs:108`): split on `','`, trimming each
segment.  Rust `str::split(',')` yields one segment more than the number
of separators; in particular `""` yields `[""]`. -/
def splitComma : Str → List Str
  | [] => [[]]
  | c :: rest =>
    if c = ',' then [] :: splitComma rest
    else
      match splitComma rest with
      | [] => [[c]]
      | s :: ss => (c :: s) :: ss

/-- `csv_to_vec` (`src/config.rs:108`). -/
def csv_to_vec (csv : Str) : List Str :=
  (splitComma csv).map trimWs

/-! ## The configuration data model (`src/config.rs`) -/

/-- `Site` (`src/config.rs:122`). -/
structure Site where
  name : Str
  author : Str
  template : Str
  topics : List Str
deriving DecidableEq, Repr

/-- `Server` (`src/config.rs:145`); `port` is a Rust `u16`. -/
structure Server where
  bind : Str
  port : Fin 65536
deriving DecidableEq, Repr

/-- `DocPaths` (`src/config.rs:161`). -/
structure DocPaths where
  templates : Str
  webroot : Str
deriving DecidableEq, Repr

/-- `AppConfig` (`src/config.rs:181`). -/
structure AppConfig where
  site : Site
  server : Server
  docpaths : DocPaths
deriving DecidableEq, Repr

/-- `Site::new_from_input` (`src/config.rs:130`): reads name, author and a
comma-separated topics line, fixes `template` to `"default.tmpl"`.
Returns the site together with the unconsumed input. -/
def Site.new_from_input (input : Str) : Site × Str :=
  let pn := get_input input
  let pa := get_input pn.2
  let pt := get_input pa.2
  ({ name := pn.1, author := pa.1, template := "default.tmpl".data,
     topics := csv_to_vec pt.1 }, pt.2)

/-- `Server::new` (`src/config.rs:151`). -/
def Server.new : Server :=
  { bind := "0.0.0.0".data, port := ⟨9090, by decide⟩ }

/-- `DocPaths::new` (`src/config.rs:167`). -/
def DocPaths.new (dir : Str) : DocPaths :=
  { templates := dir ++ "/site/templates".data,
    webroot := dir ++ "/site/webroot".data }

/-! ## The secure file writer (`src/common.rs`) -/

/-- One `Write::write_all` call at a byte position of a file:
overwrites in place, extending the file if the write runs past its end. -/
def writeAt (data : Str) (pos : Nat) (bytes : Str) : Str :=
  data.take pos ++ bytes ++ data.drop (pos + bytes.length)

/-- Rust `content.ends_with('\n')`. -/
def endsNewline (s : Str) : Bool :=
  match s.getLast? with
  | some c => c = '\n'
  | none => false

/-- `str_to_ro_file`, unix variant (`src/common.rs:28`): the file is opened
with `OpenOptions` `create(true)`, `write(true)`, `mode(0o600)` — note that
`truncate` is *not* set, so an existing file keeps any bytes past the end
of the new write.  `old` is the previous contents of the destination
(`none` when the file does not exist; `create(true)` then creates it
empty).  The function writes `content` from position 0 and then a single
`'\n'` when `content` does not already end with one.  Permission handling
(mode `0o600` at creation) has no bearing on any claim here and is elided
from the returned value. -/
def str_to_ro_file (content : Str) (old : Option Str) : Str :=
  let f0 := old.getD []
  let f1 := writeAt f0 0 content
  if endsNewline content then f1 else writeAt f1 content.length "\n".data

/-- A file on the Windows model of the filesystem: contents plus the
read-only attribute. -/
structure WinFile where
  data : Str
  readonly : Bool
deriving DecidableEq, Repr

/-- `str_to_ro_file`, windows variant (`src/common.rs:54`): `File::create`
truncates (or creates) the destination, `content` is written, then a
`'\n'` when missing.  The code then reads `metadata().permissions()` into
the local variable `perms` and calls `perms.set_readonly(true)` — which
mutates only that in-memory `Permissions` value; no
`fs::set_permissions`/`File::set_permissions` call ever applies it, so the
read-only attribute of the file on disk is left unchanged. -/
def str_to_ro_file_windows (content : Str) (old : Option WinFile) : WinFile :=
  let f0 : WinFile := { data := [], readonly := (old.map WinFile.readonly).getD false }
  let f1 : WinFile := { f0 with data := writeAt f0.data 0 content }
  let perms := f1.readonly
  let f2 : WinFile :=
    if endsNewline content then f1
    else { f1 with data := writeAt f1.data content.length "\n".data }
  let newPerms := (perms, true).2
  (f2, newPerms).1

/-! ## The content path resolver (`src/common.rs:83`) -/

/-- The filesystem as seen by `path_matches`: which paths exist, and what
the `glob` iterator yields for a pattern.  A `none` entry models a
`GlobError` (an entry whose read failed during expansion), a `some p`
entry models an `Ok(p)` match. -/
structure Fs where
  pathExists : Str → Bool
  glob : Str → List (Option Str)

/-- `PathBuf::pop` applied to the pattern (`src/common.rs:85`): drop the
final `'/'`-separated component (and its separator).  A pattern with no
separator pops to the empty path. -/
def parentOf (pat : Str) : Str :=
  match (pat.reverse.dropWhile (fun c => ¬ c = '/')) with
  | [] => []
  | _ :: rest => rest.reverse

/-- `path_matches` (`src/common.rs:83`): fail when the popped parent does
not exist; otherwise collect the glob entries through
`filter_map(Result::ok)` — read errors are dropped — and reverse the
vector. -/
def path_matches (fs : Fs) (pat : Str) : Except Str (List Str) :=
  if fs.pathExists (parentOf pat) then
    Except.ok (((fs.glob pat).filterMap id).reverse)
  else
    Except.error ("No valid parent path for '".data ++ pat ++ "'".data)

/-! ## TOML serialization (external boundary)

`AppConfig::write` uses `toml::to_string_pretty` and `AppConfig::from_path`
uses `toml::from_str` — external crates (`toml`, `serde`), not code of this
repository.  They are modelled here restricted to the `AppConfig` schema:
the emitter produces the canonical document (one table per field group, in
field declaration order; string values as TOML basic strings with standard
escaping; arrays pretty-printed one element per line), and the parser
accepts the TOML sublanguage that such documents and hand-edited variants
of them use.  The decode step models the `serde`-derived `Deserialize`
impls of `src/config.rs` (no `deny_unknown_fields`, no defaults): a
missing field is an error, an unknown field is skipped. -/

/-- TOML basic-string escaping of one character. -/
def escChar (c : Char) : Str :=
  if c = '\\' then ['\\', '\\']
  else if c = '"' then ['\\', '"']
  else if c = '\n' then ['\\', 'n']
  else if c = '\t' then ['\\', 't']
  else if c = '\r' then ['\\', 'r']
  else [c]

/-- TOML basic-string escaping. -/
def escape : Str → Str
  | [] => []
  | c :: s => escChar c ++ escape s

/-- A TOML basic string: `"` + escaped contents + `"`. -/
def quoteStr (s : Str) : Str := '"' :: (escape s ++ ['"'])

/-- One `key = value` line. -/
def kvLine (k : Str) (v : Str) : Str := k ++ " = ".data ++ v

/-- Decimal rendering of a natural number. -/
def renderNat (n : Nat) : Str :=
  if h : n < 10 then [Char.ofNat (48 + n)]
  else renderNat (n / 10) ++ [Char.ofNat (48 + n % 10)]
termination_by n
decreasing_by exact Nat.div_lt_self (by omega) (by omega)

/-- The element lines of a pretty-printed nonempty string array. -/
def topicsLines (ts : List Str) : List Str :=
  ts.map (fun t => "    ".data ++ quoteStr t ++ [','])

/-- The lines of the canonical TOML document for an `AppConfig`. -/
def serialize_lines (cfg : AppConfig) : List Str :=
  ["[site]".data,
   kvLine "name".data (quoteStr cfg.site.name),
   kvLine "author".data (quoteStr cfg.site.author),
   kvLine "template".data (quoteStr cfg.site.template)]
  ++ (if cfg.site.topics.isEmpty then [kvLine "topics".data "[]".data]
      else (kvLine "topics".data "[".data :: topicsLines cfg.site.topics) ++ ["]".data])
  ++ [[],
      "[server]".data,
      kvLine "bind".data (quoteStr cfg.server.bind),
      kvLine "port".data (renderNat cfg.server.port.val),
      [],
      "[docpaths]".data,
      kvLine "templates".data (quoteStr cfg.docpaths.templates),
      kvLine "webroot".data (quoteStr cfg.docpaths.webroot)]

/-- Join lines, terminating each with `'\n'`. -/
def joinLines (ls : List Str) : Str := (ls.map (fun l => l ++ ['\n'])).flatten

/-- Modelled from the spec: `toml::to_string_pretty` (external `toml`
crate) restricted to the `AppConfig` schema — the serializer half of the
"must round-trip losslessly through serialize→deserialize" external
interface. -/
def toml_to_string_pretty (cfg : AppConfig) : Str := joinLines (serialize_lines cfg)

/-! ## Interactive generation (`src/config.rs:200`) -/

/-- The result of `AppConfig::generate`: the returned configuration plus
its filesystem effects, made explicit. -/
structure GenEffects where
  config : AppConfig
  created_dirs : List Str
  config_path : Str
  config_file : Str
deriving DecidableEq, Repr

/-- `AppConfig::create_paths` (`src/config.rs:220`): the ordered list of
paths handed to `create_dir_all`. -/
def AppConfig.create_paths (cfg : AppConfig) : List Str :=
  [cfg.docpaths.templates,
   cfg.docpaths.webroot ++ "/static/ext".data,
   cfg.docpaths.webroot ++ "/main/ext".data,
   cfg.docpaths.webroot ++ "/main/posts".data]
  ++ cfg.site.topics.flatMap (fun t =>
       let topic := slugify t
       [cfg.docpaths.webroot ++ "/".data ++ topic ++ "/ext".data,
        cfg.docpaths.webroot ++ "/".data ++ topic ++ "/posts".data])

/-- `AppConfig::generate` (`src/config.rs:200`): derive `DocPaths`, read
the `Site` from the input stream, take the default `Server`, create the
site tree, and write the serialized configuration to
`<dir>/config.toml` through `str_to_ro_file` (whose prior contents are
`oldConfigFile`). -/
def AppConfig.generate (dir : Str) (input : Str) (oldConfigFile : Option Str) : GenEffects :=
  let docpaths := DocPaths.new dir
  let site := (Site.new_from_input input).1
  let server := Server.new
  let config : AppConfig := { site := site, server := server, docpaths := docpaths }
  { config := config,
    created_dirs := config.create_paths,
    config_path := dir ++ "/config.toml".data,
    config_file := str_to_ro_file (toml_to_string_pretty config) oldConfigFile }

/-! ## TOML parsing (external boundary, used by `AppConfig::from_path`) -/

/-- A TOML value of the sublanguage the `AppConfig` schema uses. -/
inductive TomlVal where
  | vStr (s : Str)
  | vInt (n : Nat)
  | vArr (elems : List Str)
deriving DecidableEq, Repr

/-- Split a string on a separator character; yields one segment more than
the number of separators (`""` yields `[""]`). -/
def splitOnChar (sep : Char) : Str → List Str
  | [] => [[]]
  | c :: rest =>
    if c = sep then [] :: splitOnChar sep rest
    else
      match splitOnChar sep rest with
      | [] => [[c]]
      | l :: ls => (c :: l) :: ls

/-- The lines of a document (split on `'\n'`). -/
def splitLines (s : Str) : List Str := splitOnChar '\n' s

/-- Decoding of a TOML basic-string escape character. -/
def unescChar (e : Char) : Option Char :=
  if e = '\\' then some '\\'
  else if e = '"' then some '"'
  else if e = 'n' then some '\n'
  else if e = 't' then some '\t'
  else if e = 'r' then some '\r'
  else none

/-- Parse the remainder of a TOML basic string (the opening `"` already
consumed); returns the decoded contents and the input after the closing
`"`. -/
def parseBasicString : Str → Option (Str × Str)
  | [] => none
  | c :: rest =>
    if c = '"' then some ([], rest)
    else if c = '\\' then
      match rest with
      | [] => none
      | e :: rest2 =>
        match unescChar e, parseBasicString rest2 with
        | some c2, some p => some (c2 :: p.1, p.2)
        | _, _ => none
    else
      match parseBasicString rest with
      | some p => some (c :: p.1, p.2)
      | none => none

/-- ASCII decimal digit test. -/
def isDigitCh (c : Char) : Bool := decide (48 ≤ c.toNat ∧ c.toNat ≤ 57)

/-- Value of a digit string. -/
def digitsToNat (ds : Str) : Nat := ds.foldl (fun acc c => acc * 10 + (c.toNat - 48)) 0

/-- Parse a single-line value token (already trimmed): a basic string, a
nonnegative integer, or the empty inline array `[]`. -/
def parseValueToken (v : Str) : Option TomlVal :=
  match v with
  | [] => none
  | c :: rest =>
    if c = '"' then
      match parseBasicString rest with
      | some p => if p.2 = [] then some (TomlVal.vStr p.1) else none
      | none => none
    else if c = '[' then
      if trimWs rest = [']'] then some (TomlVal.vArr []) else none
    else if v.all isDigitCh then some (TomlVal.vInt (digitsToNat v))
    else none

/-- Split a line around its first `'='`. -/
def splitAtFirstEq : Str → Option (Str × Str)
  | [] => none
  | c :: rest =>
    if c = '=' then some ([], rest)
    else
      match splitAtFirstEq rest with
      | some p => some (c :: p.1, p.2)
      | none => none

/-- A line consisting only of whitespace. -/
def isBlankLine (l : Str) : Bool := (trimStart l).isEmpty

/-- Parse a `[name]` table-header line. -/
def parseHeaderLine (l : Str) : Option Str :=
  match l with
  | '[' :: rest =>
    match rest.reverse with
    | ']' :: revName => some revName.reverse
    | _ => none
  | _ => none

/-- Whether a line is a table header. -/
def isHeaderLine (l : Str) : Bool := (parseHeaderLine l).isSome

/-- Parse one element line of a pretty-printed string array: a basic
string, optionally followed by a comma. -/
def parseArrayItemLine (l : Str) : Option Str :=
  match trimWs l with
  | '"' :: rest =>
    (match parseBasicString rest with
     | some p => if p.2 = [] ∨ p.2 = [','] then some p.1 else none
     | none => none)
  | _ => none

/-- Apply a fallible function to every element, failing when any
application fails. -/
def mapOptionList {α β : Type} (f : α → Option β) : List α → Option (List β)
  | [] => some []
  | a :: as =>
    match f a, mapOptionList f as with
    | some b, some bs => some (b :: bs)
    | _, _ => none

/-- Whether a line closes a pretty-printed array. -/
def isArrayCloseLine (l : Str) : Bool := trimWs l = [']']

/-- Parse the body lines of one table into its key/value list.  Blank
lines are skipped; a `key = [` line opens a pretty-printed array whose
element lines run up to the closing `]` line. -/
def parseKVs : List Str → Option (List (Str × TomlVal))
  | [] => some []
  | l :: ls =>
    if isBlankLine l then parseKVs ls
    else
      match splitAtFirstEq l with
      | none => none
      | some (k, v) =>
        let key := trimWs k
        let vt := trimWs v
        if vt = ['['] then
          let itemLines := ls.takeWhile (fun x => ! isArrayCloseLine x)
          match h : ls.dropWhile (fun x => ! isArrayCloseLine x) with
          | [] => none
          | _ :: rest2 =>
            match mapOptionList parseArrayItemLine itemLines, parseKVs rest2 with
            | some items, some kvs => some ((key, TomlVal.vArr items) :: kvs)
            | _, _ => none
        else
          match parseValueToken vt with
          | none => none
          | some tv =>
            match parseKVs ls with
            | some kvs => some ((key, tv) :: kvs)
            | none => none
termination_by ls => ls.length
decreasing_by
  all_goals simp
  all_goals
    first
      | omega
      | (have h1 : (List.dropWhile (fun x => ! isArrayCloseLine x) ss).length ≤ ss.length :=
      (List.dropWhile_suffix _).length_le;
         rw [h] at h1;
         simp at h1;
         omega)

/-- Parse a document's lines into its list of tables. -/
def parseTables (ls : List Str) : Option (List (Str × List (Str × TomlVal))) :=
  match h : ls.dropWhile isBlankLine with
  | [] => some []
  | l :: rest =>
    match parseHeaderLine l with
    | none => none
    | some name =>
      let body := rest.takeWhile (fun x => ! isHeaderLine x)
      let rest2 := rest.dropWhile (fun x => ! isHeaderLine x)
      match parseKVs body, parseTables rest2 with
      | some kvs, some tbls => some ((name, kvs) :: tbls)
      | _, _ => none
termination_by ls.length
decreasing_by
  have h1 : (ls.dropWhile isBlankLine).length ≤ ls.length :=
    (List.dropWhile_suffix _).length_le
  have h2 : (rest.dropWhile (fun x => ! isHeaderLine x)).length ≤ rest.length :=
    (List.dropWhile_suffix _).length_le
  rw [h] at h1
  simp at h1
  simp
  omega

/-- First-match key lookup in an association list. -/
def lookupKey {α : Type} (kvs : List (Str × α)) (k : Str) : Option α :=
  match kvs with
  | [] => none
  | (k2, v) :: rest => if k2 = k then some v else lookupKey rest k

/-- Coerce a TOML value to a string. -/
def asStr : TomlVal → Option Str
  | .vStr s => some s
  | _ => none

/-- Coerce a TOML value to a string array. -/
def asArr : TomlVal → Option (List Str)
  | .vArr xs => some xs
  | _ => none

/-- Coerce a TOML value to a `u16` (range-checked). -/
def asU16 : TomlVal → Option (Fin 65536)
  | .vInt n => if h : n < 65536 then some ⟨n, h⟩ else none
  | _ => none

/-- The `serde`-derived `Deserialize` for `Site` (`src/config.rs:121`):
every declared field is required (error when missing), keys not matching a
declared field are skipped (`serde`'s default — no `deny_unknown_fields`
attribute is present). -/
def decodeSite (kvs : List (Str × TomlVal)) : Option Site :=
  match lookupKey kvs "name".data >>= asStr, lookupKey kvs "author".data >>= asStr,
        lookupKey kvs "template".data >>= asStr, lookupKey kvs "topics".data >>= asArr with
  | some n, some a, some t, some ts =>
    some { name := n, author := a, template := t, topics := ts }
  | _, _, _, _ => none

/-- The `serde`-derived `Deserialize` for `Server` (`src/config.rs:144`). -/
def decodeServer (kvs : List (Str × TomlVal)) : Option Server :=
  match lookupKey kvs "bind".data >>= asStr, lookupKey kvs "port".data >>= asU16 with
  | some b, some p => some { bind := b, port := p }
  | _, _ => none

/-- The `serde`-derived `Deserialize` for `DocPaths` (`src/config.rs:160`). -/
def decodeDocPaths (kvs : List (Str × TomlVal)) : Option DocPaths :=
  match lookupKey kvs "templates".data >>= asStr, lookupKey kvs "webroot".data >>= asStr with
  | some t, some w => some { templates := t, webroot := w }
  | _, _ => none

/-- The `serde`-derived `Deserialize` for `AppConfig` (`src/config.rs:180`). -/
def decodeAppConfig (tbls : List (Str × List (Str × TomlVal))) : Option AppConfig :=
  match lookupKey tbls "site".data >>= (fun kvs => decodeSite kvs),
        lookupKey tbls "server".data >>= (fun kvs => decodeServer kvs),
        lookupKey tbls "docpaths".data >>= (fun kvs => decodeDocPaths kvs) with
  | some site, some server, some docpaths =>
    some { site := site, server := server, docpaths := docpaths }
  | _, _, _ => none

/-- Modelled from the spec: `toml::from_str::<AppConfig>` (external `toml`
and `serde` crates) on the sublanguage of TOML that the canonical
documents use — the deserializer half of the round-trip interface. -/
def toml_from_str (text : Str) : Option AppConfig :=
  match parseTables (splitLines text) with
  | none => none
  | some tbls => decodeAppConfig tbls

/-- `AppConfig::from_path` (`src/config.rs:188`): read the file (`none`
models an unreadable/absent file), then parse.  Errors carry the
`context` messages of the source. -/
def AppConfig.from_path (file : Option Str) : Except Str AppConfig :=
  match file with
  | none => Except.error "failed reading config to string".data
  | some text =>
    match toml_from_str text with
    | some cfg => Except.ok cfg
    | none => Except.error "failed to parse TOML".data

/-! ## Helper lemmas -/

theorem charOfNat_toNat (n : Nat) (h : n < 55296) : (Char.ofNat n).toNat = n := by
  unfold Char.ofNat
  rw [dif_pos (Or.inl h)]
  rfl

theorem toAsciiLower_toNat (c : Char) :
    (toAsciiLower c).toNat =
      if 65 ≤ c.toNat ∧ c.toNat ≤ 90 then c.toNat + 32 else c.toNat := by
  unfold toAsciiLower
  split
  · next h => rw [charOfNat_toNat _ (by omega)]
  · rfl

theorem toAsciiLower_idem (c : Char) : toAsciiLower (toAsciiLower c) = toAsciiLower c := by
  unfold toAsciiLower
  split
  · next h =>
    rw [if_neg]
    rw [charOfNat_toNat _ (by omega)]
    omega
  · rfl

theorem rustIsWhitespace_toAsciiLower (c : Char) :
    rustIsWhitespace (toAsciiLower c) = rustIsWhitespace c := by
  unfold rustIsWhitespace
  rw [toAsciiLower_toNat]
  split
  · next h =>
    rw [decide_eq_decide]
    omega
  · rfl

/-- `splitComma` never returns the empty list. -/
theorem splitComma_ne_nil (s : Str) : splitComma s ≠ [] := by
  cases s with
  | nil => simp [splitComma]
  | cons c rest =>
    simp only [splitComma]
    split
    · simp
    · split <;> simp

/-- `csv_to_vec` never returns the empty vector. -/
theorem csv_to_vec_ne_nil (csv : Str) : csv_to_vec csv ≠ [] := by
  unfold csv_to_vec
  simp [splitComma_ne_nil csv]

theorem endsNewline_append_left (a b : Str) (hb : b ≠ []) :
    endsNewline (a ++ b) = endsNewline b := by
  unfold endsNewline
  rw [List.getLast?_append_of_ne_nil a hb]

theorem endsNewline_concat (s : Str) : endsNewline (s ++ ['\n']) = true := by
  unfold endsNewline
  rw [List.getLast?_concat]
  rfl

/-- A joined block of lines always ends with a newline. -/
theorem endsNewline_joinLines (ls : List Str) (h : ls ≠ []) :
    endsNewline (joinLines ls) = true := by
  induction ls with
  | nil => exact absurd rfl h
  | cons l ls ih =>
    unfold joinLines
    simp only [List.map_cons, List.flatten_cons]
    cases ls with
    | nil => simp [endsNewline_concat]
    | cons l2 ls2 =>
      rw [endsNewline_append_left _ _ (by simp)]
      exact ih (by simp)

/-- The serialized configuration document always ends with a newline. -/
theorem endsNewline_toml (cfg : AppConfig) :
    endsNewline (toml_to_string_pretty cfg) = true := by
  unfold toml_to_string_pretty serialize_lines
  apply endsNewline_joinLines
  simp

/-- Writing to a fresh destination yields the content, newline-terminated
exactly when it was not already. -/
theorem str_to_ro_file_none (content : Str) :
    str_to_ro_file content none =
      if endsNewline content then content else content ++ ['\n'] := by
  unfold str_to_ro_file writeAt
  simp only [Option.getD_none, List.take_nil, List.drop_nil, List.nil_append,
    List.append_nil]
  split
  · rfl
  · rw [List.take_length content,
      List.drop_eq_nil_of_le (Nat.le_add_right _ _), List.append_nil]

/-! ## Claim C9 — `slugify` is idempotent -/

/-- Claim C9: `slugify` is idempotent — `slugify (slugify x) = slugify x`
for every string `x` — and `slugify "One Two" = "one-two"`:
ASCII-only lower-casing followed by one-for-one replacement of each
whitespace character by a hyphen. -/
theorem slugify_idempotent :
    (∀ x : Str, slugify (slugify x) = slugify x) ∧
    slugify "One Two".data = "one-two".data := by
  constructor
  · intro x
    unfold slugify
    simp only [List.map_map]
    apply List.map_congr_left
    intro c _
    simp only [Function.comp_apply]
    by_cases hws : rustIsWhitespace (toAsciiLower c) = true
    · simp [hws]
      decide
    · simp [hws, toAsciiLower_idem]
  · decide

/-! ## Claim C10 — comma splitting is never empty -/

/-- Claim C10: `csv_to_vec` always yields at least one segment (the empty
string yields `[""]`), so an interactively generated `Site` always has at
least one topic entry, and `create_paths` creates the `<slug>/ext`,
`<slug>/posts` pair for every topic entry. -/
theorem csv_topics_nonempty :
    (∀ csv : Str, csv_to_vec csv ≠ []) ∧
    csv_to_vec "".data = ["".data] ∧
    (∀ input : Str, (Site.new_from_input input).1.topics ≠ []) ∧
    (∀ (cfg : AppConfig) (t : Str), t ∈ cfg.site.topics →
      cfg.docpaths.webroot ++ "/".data ++ slugify t ++ "/ext".data ∈ cfg.create_paths ∧
      cfg.docpaths.webroot ++ "/".data ++ slugify t ++ "/posts".data ∈ cfg.create_paths) := by
  refine ⟨csv_to_vec_ne_nil, by decide, ?_, ?_⟩
  · intro input
    unfold Site.new_from_input
    exact csv_to_vec_ne_nil _
  · intro cfg t ht
    unfold AppConfig.create_paths
    constructor
    · refine List.mem_append_right _ ?_
      rw [List.mem_flatMap]
      exact ⟨t, ht, by simp⟩
    · refine List.mem_append_right _ ?_
      rw [List.mem_flatMap]
      exact ⟨t, ht, by simp⟩

/-- A concrete configuration used to instantiate `csv_topics_nonempty`. -/
def cfgTopicsW : AppConfig :=
  { site := { name := "n".data, author := "a".data, template := "default.tmpl".data,
              topics := ["Foo".data] },
    server := Server.new,
    docpaths := DocPaths.new "/base".data }

/-- Witness for claim C10 at a concrete configuration and topic. -/
theorem csv_topics_nonempty_witness :
    cfgTopicsW.docpaths.webroot ++ "/".data ++ slugify "Foo".data ++ "/ext".data
        ∈ cfgTopicsW.create_paths ∧
    cfgTopicsW.docpaths.webroot ++ "/".data ++ slugify "Foo".data ++ "/posts".data
        ∈ cfgTopicsW.create_paths :=
  csv_topics_nonempty.2.2.2 cfgTopicsW "Foo".data (by decide)

/-! ## Claim C4 — missing parent directory is a fail-fast error -/

/-- Claim C4: whenever the pattern's parent directory (the pattern with
its final path segment removed) does not exist, `path_matches` fails with
the "no valid parent path" error — it never returns an empty result. -/
theorem path_matches_no_parent (fs : Fs) (pat : Str)
    (h : fs.pathExists (parentOf pat) = false) :
    path_matches fs pat =
      Except.error ("No valid parent path for '".data ++ pat ++ "'".data) := by
  unfold path_matches
  rw [h]
  simp

/-- A filesystem on which nothing exists but a glob match would be
reported, instantiating `path_matches_no_parent`. -/
def fsNoParentW : Fs :=
  { pathExists := fun _ => false,
    glob := fun _ => [some "dir/nope/a.md".data] }

/-- Witness for claim C4: the error is returned even though the glob
would have had a match. -/
theorem path_matches_no_parent_witness :
    path_matches fsNoParentW "dir/nope/*.md".data =
      Except.error ("No valid parent path for '".data ++ "dir/nope/*.md".data ++ "'".data) :=
  path_matches_no_parent fsNoParentW "dir/nope/*.md".data rfl

/-! ## Claim C5 — create-or-truncate (refuted: the unix build does not truncate) -/

/-- Claim C5, evaluated at the failing input: the unix `str_to_ro_file`
opens with `create(true)` + `write(true)` but never sets `truncate`, so
writing `"ab"` over a pre-existing file holding `"0123456789"` leaves the
tail of the earlier, longer contents in place: the file ends up as
`"ab\n3456789"`, not `"ab\n"`. -/
theorem str_to_ro_file_no_truncate :
    str_to_ro_file "ab".data (some "0123456789".data) = "ab\n3456789".data ∧
    str_to_ro_file "ab".data (some "0123456789".data) ≠ "ab\n".data := by
  constructor
  · decide
  · decide

/-! ## Claim C6 — exactly one newline is appended when missing -/

/-- Claim C6: on a fresh destination, `str_to_ro_file` writes the content
followed by a single `'\n'` exactly when the content does not already end
with one: `"line1"` produces `"line1\n"`, and `"line1\n"` also produces
`"line1\n"` (no double newline). -/
theorem str_to_ro_file_newline :
    (∀ content : Str, str_to_ro_file content none =
      if endsNewline content then content else content ++ ['\n']) ∧
    str_to_ro_file "line1".data none = "line1\n".data ∧
    str_to_ro_file "line1\n".data none = "line1\n".data :=
  ⟨str_to_ro_file_none, by decide, by decide⟩

/-! ## Claim C7 — Windows read-only marking (refuted: never applied) -/

/-- Claim C7, evaluated at the failing input: the Windows variant of
`str_to_ro_file` only mutates the in-memory `Permissions` value returned
by `metadata().permissions()` — `set_readonly(true)` is never written back
with `set_permissions` — so after a successful call on a fresh destination
the file's contents are written but its read-only attribute is still
`false`.  The first conjunct states this for every content and prior
state. -/
theorem str_to_ro_file_windows_not_readonly :
    (∀ (content : Str) (old : Option WinFile),
      (str_to_ro_file_windows content old).readonly =
        (old.map WinFile.readonly).getD false) ∧
    (str_to_ro_file_windows "x".data none).readonly = false ∧
    (str_to_ro_file_windows "x".data none).data = "x\n".data := by
  refine ⟨?_, by decide, by decide⟩
  intro content old
  unfold str_to_ro_file_windows
  split <;> rfl

/-! ## Claim C3 — resolver output is exactly the ok-matches, reverse-lexically ordered -/

/-- Lexical (byte-wise UTF-8, equivalently scalar-value-wise) order of
full path strings. -/
def strLtB : Str → Str → Bool
  | [], [] => false
  | [], _ :: _ => true
  | _ :: _, [] => false
  | a :: as, b :: bs =>
    if a.toNat < b.toNat then true
    else if a.toNat = b.toNat then strLtB as bs
    else false

/-- Claim C3: when the pattern's parent exists, `path_matches` returns
exactly the glob matches the filesystem successfully reports — entries
whose expansion hit a read error (`none` in the model) are silently
skipped, not propagated — and, given that the glob iterator yields its
matches in (strictly) ascending lexical order of the full path string
(the `glob` crate's documented contract: paths are yielded in
alphabetical order, and matches are distinct), the returned sequence is
in strictly descending — reverse-lexical — order. -/
theorem path_matches_reverse_sorted (fs : Fs) (pat : Str)
    (hpar : fs.pathExists (parentOf pat) = true)
    (hsorted : ((fs.glob pat).filterMap id).Pairwise (fun a b => strLtB a b = true)) :
    path_matches fs pat = Except.ok (((fs.glob pat).filterMap id).reverse) ∧
    (((fs.glob pat).filterMap id).reverse).Pairwise (fun a b => strLtB b a = true) := by
  constructor
  · unfold path_matches
    rw [hpar]
    simp
  · rw [List.pairwise_reverse]
    exact hsorted

/-- A filesystem whose glob yields two ok matches in ascending order with
a read-error entry between them, instantiating
`path_matches_reverse_sorted`. -/
def fsSortedW : Fs :=
  { pathExists := fun _ => true,
    glob := fun _ => [some "posts/1.md".data, none, some "posts/2.md".data] }

/-- Witness for claim C3: the error entry is dropped and the two matches
come back reverse-lexically sorted. -/
theorem path_matches_reverse_sorted_witness :
    path_matches fsSortedW "posts/*.md".data =
      Except.ok (((fsSortedW.glob "posts/*.md".data).filterMap id).reverse) ∧
    (((fsSortedW.glob "posts/*.md".data).filterMap id).reverse).Pairwise
      (fun a b => strLtB b a = true) :=
  path_matches_reverse_sorted fsSortedW "posts/*.md".data rfl (by decide)

/-! ## Claim C1 — end-to-end interactive generation -/

/-- Claim C1: `AppConfig::generate` on the input stream
`"MySite\nAlice\nFoo, Bar\n"` returns the configuration with
`site.name = "MySite"`, `site.author = "Alice"`,
`site.topics = ["Foo", "Bar"]`, the fixed default template, and the
default server `{bind = "0.0.0.0", port = 9090}`; it creates
`dir/site/templates`, `dir/site/webroot/{static/ext, main/ext,
main/posts}` and the `<slug>/ext`, `<slug>/posts` pair for each topic
slug (`foo`, `bar`), and writes the serialized configuration to
`dir/config.toml`. -/
theorem generate_interactive_end_to_end (dir : Str) :
    AppConfig.generate dir "MySite\nAlice\nFoo, Bar\n".data none =
      { config :=
          { site := { name := "MySite".data, author := "Alice".data,
                      template := "default.tmpl".data,
                      topics := ["Foo".data, "Bar".data] },
            server := { bind := "0.0.0.0".data, port := ⟨9090, by omega⟩ },
            docpaths := { templates := dir ++ "/site/templates".data,
                          webroot := dir ++ "/site/webroot".data } },
        created_dirs :=
          [dir ++ "/site/templates".data,
           dir ++ "/site/webroot/static/ext".data,
           dir ++ "/site/webroot/main/ext".data,
           dir ++ "/site/webroot/main/posts".data,
           dir ++ "/site/webroot/foo/ext".data,
           dir ++ "/site/webroot/foo/posts".data,
           dir ++ "/site/webroot/bar/ext".data,
           dir ++ "/site/webroot/bar/posts".data],
        config_path := dir ++ "/config.toml".data,
        config_file := toml_to_string_pretty
          { site := { name := "MySite".data, author := "Alice".data,
                      template := "default.tmpl".data,
                      topics := ["Foo".data, "Bar".data] },
            server := { bind := "0.0.0.0".data, port := ⟨9090, by omega⟩ },
            docpaths := { templates := dir ++ "/site/templates".data,
                          webroot := dir ++ "/site/webroot".data } } } := by
  have hsite : (Site.new_from_input "MySite\nAlice\nFoo, Bar\n".data).1 =
      { name := "MySite".data, author := "Alice".data,
        template := "default.tmpl".data,
        topics := ["Foo".data, "Bar".data] } := by decide
  have hfoo : slugify "Foo".data = "foo".data := by decide
  have hbar : slugify "Bar".data = "bar".data := by decide
  unfold AppConfig.generate
  simp only [hsite, str_to_ro_file_none, endsNewline_toml, if_true,
    AppConfig.create_paths, DocPaths.new, Server.new, hfoo, hbar,
    List.flatMap_cons, List.flatMap_nil, List.append_assoc, List.append_nil,
    GenEffects.mk.injEq]
  simp

/-! ## Round-trip machinery: string-level lemmas -/

/-- Escaped text contains no raw newline (`'\n'` is emitted as `\n`). -/
theorem mem_escape_ne_newline (s : Str) : ∀ c ∈ escape s, ¬ c = '\n' := by
  induction s with
  | nil => simp [escape]
  | cons c s ih =>
    intro d hd
    simp only [escape, List.mem_append] at hd
    rcases hd with h | h
    · unfold escChar at h
      split_ifs at h <;> simp at h <;>
        first
          | (rcases h with h | h <;> subst h <;> decide)
          | (subst h; decide)
          | (subst h; assumption)
    · exact ih d h

theorem parseBasicString_quote (rest : Str) :
    parseBasicString ('"' :: rest) = some ([], rest) := by
  unfold parseBasicString
  simp

theorem parseBasicString_backslash (e : Char) (rest : Str) :
    parseBasicString ('\\' :: e :: rest) =
      match unescChar e, parseBasicString rest with
      | some c2, some p => some (c2 :: p.1, p.2)
      | _, _ => none := by
  conv_lhs => unfold parseBasicString
  simp

theorem parseBasicString_other (c : Char) (rest : Str)
    (h1 : ¬ c = '"') (h2 : ¬ c = '\\') :
    parseBasicString (c :: rest) =
      match parseBasicString rest with
      | some p => some (c :: p.1, p.2)
      | none => none := by
  conv_lhs => unfold parseBasicString
  simp [h1, h2]

/-- Parsing an escaped string recovers the original text. -/
theorem parseBasicString_escape (s rest : Str) :
    parseBasicString (escape s ++ '"' :: rest) = some (s, rest) := by
  induction s with
  | nil =>
    simp only [escape, List.nil_append]
    exact parseBasicString_quote rest
  | cons c s ih =>
    simp only [escape, List.append_assoc]
    by_cases h1 : c = '\\'
    · subst h1
      rw [show escChar '\\' = ['\\', '\\'] from by decide]
      simp only [List.cons_append, List.nil_append]
      rw [parseBasicString_backslash, ih]
      simp [unescChar]
    · by_cases h2 : c = '"'
      · subst h2
        rw [show escChar '"' = ['\\', '"'] from by decide]
        simp only [List.cons_append, List.nil_append]
        rw [parseBasicString_backslash, ih]
        simp [unescChar]
      · by_cases h3 : c = '\n'
        · subst h3
          rw [show escChar '\n' = ['\\', 'n'] from by decide]
          simp only [List.cons_append, List.nil_append]
          rw [parseBasicString_backslash, ih]
          simp [unescChar]
        · by_cases h4 : c = '\t'
          · subst h4
            rw [show escChar '\t' = ['\\', 't'] from by decide]
            simp only [List.cons_append, List.nil_append]
            rw [parseBasicString_backslash, ih]
            simp [unescChar]
          · by_cases h5 : c = '\r'
            · subst h5
              rw [show escChar '\r' = ['\\', 'r'] from by decide]
              simp only [List.cons_append, List.nil_append]
              rw [parseBasicString_backslash, ih]
              simp [unescChar]
            · rw [show escChar c = [c] from by
                simp [escChar, h1, h2, h3, h4, h5]]
              simp only [List.cons_append, List.nil_append]
              rw [parseBasicString_other c _ h2 h1, ih]

/-- Splitting at a separator that does not occur in the first chunk. -/
theorem splitOnChar_append (sep : Char) (l rest : Str) (h : sep ∉ l) :
    splitOnChar sep (l ++ sep :: rest) = l :: splitOnChar sep rest := by
  induction l with
  | nil => simp [splitOnChar]
  | cons c l ih =>
    simp only [List.cons_append, splitOnChar]
    have hc : ¬ c = sep := fun hcc => h (hcc ▸ List.mem_cons_self c l)
    simp only [List.append_eq]
    rw [if_neg hc, ih (fun hm => h (List.mem_cons_of_mem _ hm))]

/-- Splitting the joined lines recovers them (with the trailing empty
segment after the final newline), provided no line contains a newline. -/
theorem splitLines_joinLines (ls : List Str) (h : ∀ l ∈ ls, '\n' ∉ l) :
    splitLines (joinLines ls) = ls ++ [[]] := by
  induction ls with
  | nil => simp [joinLines, splitLines, splitOnChar]
  | cons l ls ih =>
    unfold joinLines splitLines at *
    simp only [List.map_cons, List.flatten_cons, List.append_assoc,
      List.singleton_append]
    rw [splitOnChar_append _ _ _ (h l (List.mem_cons_self l ls))]
    rw [ih (fun x hx => h x (List.mem_cons_of_mem _ hx))]
    simp

/-- `takeWhile`/`dropWhile` at the first element failing the predicate. -/
theorem takeWhile_dropWhile_boundary {α : Type} (p : α → Bool) (a : List α)
    (l : α) (b : List α) (ha : ∀ x ∈ a, p x = true) (hl : p l = false) :
    (a ++ l :: b).takeWhile p = a ∧ (a ++ l :: b).dropWhile p = l :: b := by
  induction a with
  | nil => simp [List.takeWhile_cons, List.dropWhile_cons, hl]
  | cons x a ih =>
    have hx : p x = true := ha x (List.mem_cons_self x a)
    have ht := ih (fun y hy => ha y (List.mem_cons_of_mem _ hy))
    simp only [List.cons_append, List.takeWhile_cons, List.dropWhile_cons, hx,
      if_true]
    exact ⟨by rw [ht.1], by rw [ht.2]⟩

/-- `dropWhile` is the identity when no element satisfies the predicate. -/
theorem dropWhile_eq_self_of_all {α : Type} (p : α → Bool) (l : List α)
    (h : ∀ x ∈ l, p x = false) : l.dropWhile p = l := by
  cases l with
  | nil => rfl
  | cons x l => simp [List.dropWhile_cons, h x (List.mem_cons_self x l)]

/-- Dropping a leading whitespace character under `trimWs`. -/
theorem trimWs_cons_ws (c : Char) (l : Str) (h : rustIsWhitespace c = true) :
    trimWs (c :: l) = trimWs l := by
  unfold trimWs trimStart
  rw [List.dropWhile_cons, if_pos h]

/-- `trimWs` fixes a string whose first and last characters are not
whitespace. -/
theorem trimWs_eq_self (c : Char) (l : Str) (d : Char)
    (hc : rustIsWhitespace c = false) (hd : rustIsWhitespace d = false) :
    trimWs (c :: (l ++ [d])) = c :: (l ++ [d]) := by
  unfold trimWs trimStart trimEnd
  rw [List.dropWhile_cons, if_neg (by simp [hc])]
  rw [show (c :: (l ++ [d])).reverse = d :: (l.reverse ++ [c]) from by simp]
  rw [List.dropWhile_cons, if_neg (by simp [hd])]
  simp

/-- `trimWs` fixes a nonempty all-non-whitespace string. -/
theorem trimWs_eq_self_of_all (l : Str) (h : ∀ x ∈ l, rustIsWhitespace x = false) :
    trimWs l = l := by
  unfold trimWs trimStart trimEnd
  rw [dropWhile_eq_self_of_all _ _ h,
    dropWhile_eq_self_of_all _ _ (fun x hx => h x (List.mem_reverse.mp hx)),
    List.reverse_reverse]

/-- All characters of a rendered natural number are decimal digits. -/
theorem renderNat_all_digits (n : Nat) : ∀ c ∈ renderNat n, isDigitCh c = true := by
  induction n using Nat.strong_induction_on with
  | _ n ih =>
    unfold renderNat
    split
    · next h =>
      intro c hc
      simp at hc
      subst hc
      unfold isDigitCh
      rw [charOfNat_toNat _ (by omega)]
      simp
      omega
    · next h =>
      intro c hc
      rw [List.mem_append] at hc
      rcases hc with hc | hc
      · exact ih (n / 10) (Nat.div_lt_self (by omega) (by omega)) c hc
      · simp at hc
        subst hc
        unfold isDigitCh
        rw [charOfNat_toNat _ (by omega)]
        simp
        omega

/-- Rendering never produces the empty string. -/
theorem renderNat_ne_nil (n : Nat) : renderNat n ≠ [] := by
  unfold renderNat
  split <;> simp

/-- Digit characters are not whitespace. -/
theorem not_ws_of_digit (c : Char) (h : isDigitCh c = true) :
    rustIsWhitespace c = false := by
  unfold isDigitCh at h
  unfold rustIsWhitespace
  rw [decide_eq_true_eq] at h
  rw [decide_eq_false_iff_not]
  omega

/-- Reading back the decimal rendering recovers the number. -/
theorem digitsToNat_renderNat (n : Nat) : digitsToNat (renderNat n) = n := by
  induction n using Nat.strong_induction_on with
  | _ n ih =>
    unfold renderNat
    split
    · next h =>
      unfold digitsToNat
      simp only [List.foldl_cons, List.foldl_nil]
      rw [charOfNat_toNat _ (by omega)]
      omega
    · next h =>
      unfold digitsToNat
      rw [List.foldl_append]
      have hrec := ih (n / 10) (Nat.div_lt_self (by omega) (by omega))
      unfold digitsToNat at hrec
      rw [hrec]
      simp only [List.foldl_cons, List.foldl_nil]
      rw [charOfNat_toNat _ (by omega)]
      omega

/-! ## Round-trip machinery: parser-step lemmas -/

theorem parseValueToken_quote (s : Str) :
    parseValueToken (quoteStr s) = some (TomlVal.vStr s) := by
  show parseValueToken ('"' :: (escape s ++ '"' :: [])) = some (TomlVal.vStr s)
  simp [parseValueToken, parseBasicString_escape]

theorem parseValueToken_num (n : Nat) :
    parseValueToken (renderNat n) = some (TomlVal.vInt n) := by
  obtain ⟨c, v, hcv⟩ := List.exists_cons_of_ne_nil (renderNat_ne_nil n)
  have hd : isDigitCh c = true := renderNat_all_digits n c (by rw [hcv]; simp)
  have hq : ¬ c = '"' := fun hh => absurd hd (by subst hh; decide)
  have hb : ¬ c = '[' := fun hh => absurd hd (by subst hh; decide)
  rw [hcv]
  conv_lhs => unfold parseValueToken
  simp only [hq, hb, if_false]
  rw [if_pos]
  · rw [show (c :: v) = renderNat n from hcv.symm, digitsToNat_renderNat]
  · rw [show (c :: v) = renderNat n from hcv.symm]
    rw [List.all_eq_true]
    exact renderNat_all_digits n

theorem splitAtFirstEq_append (k v : Str) (h : '=' ∉ k) :
    splitAtFirstEq (k ++ '=' :: v) = some (k, v) := by
  induction k with
  | nil =>
    simp only [List.nil_append]
    conv_lhs => unfold splitAtFirstEq
    simp
  | cons c k ih =>
    have hc : ¬ c = '=' := fun hcc => h (hcc ▸ List.mem_cons_self c k)
    simp only [List.cons_append]
    conv_lhs => unfold splitAtFirstEq
    rw [if_neg hc, ih (fun hm => h (List.mem_cons_of_mem _ hm))]

theorem splitAtFirstEq_kvLine (k v : Str) (h : '=' ∉ k) :
    splitAtFirstEq (kvLine k v) = some (k ++ [' '], ' ' :: v) := by
  have hk : kvLine k v = (k ++ [' ']) ++ '=' :: (' ' :: v) := by simp [kvLine]
  rw [hk, splitAtFirstEq_append _ _ (by simp [h])]

theorem isBlankLine_cons (c : Char) (l : Str) (h : rustIsWhitespace c = false) :
    isBlankLine (c :: l) = false := by
  simp [isBlankLine, trimStart, List.dropWhile_cons, h]

theorem parseHeaderLine_cons (c : Char) (l : Str) (h : ¬ c = '[') :
    parseHeaderLine (c :: l) = none := by
  unfold parseHeaderLine
  split
  · next heq =>
    rw [List.cons.injEq] at heq
    exact absurd heq.1 h
  · rfl

theorem isHeaderLine_cons (c : Char) (l : Str) (h : ¬ c = '[') :
    isHeaderLine (c :: l) = false := by
  simp [isHeaderLine, parseHeaderLine_cons c l h]

theorem trimWs_quote_comma (t : Str) :
    trimWs (quoteStr t ++ [',']) = quoteStr t ++ [','] := by
  have hq : quoteStr t ++ [','] = '"' :: ((escape t ++ ['"']) ++ [',']) := by
    simp [quoteStr]
  rw [hq, trimWs_eq_self _ _ _ (by decide) (by decide)]

theorem parseArrayItemLine_topic (t : Str) :
    parseArrayItemLine ("    ".data ++ (quoteStr t ++ [','])) = some t := by
  unfold parseArrayItemLine
  rw [show ("    ".data ++ (quoteStr t ++ [','])) =
    ' ' :: (' ' :: (' ' :: (' ' :: (quoteStr t ++ [','])))) from by simp]
  rw [trimWs_cons_ws _ _ (by decide), trimWs_cons_ws _ _ (by decide),
    trimWs_cons_ws _ _ (by decide), trimWs_cons_ws _ _ (by decide),
    trimWs_quote_comma]
  rw [show quoteStr t ++ [','] = '"' :: (escape t ++ '"' :: [',']) from by
    simp [quoteStr]]
  simp [parseBasicString_escape]

theorem mapOptionList_topicsLines (ts : List Str) :
    mapOptionList parseArrayItemLine (topicsLines ts) = some ts := by
  induction ts with
  | nil => rfl
  | cons t ts ih =>
    unfold topicsLines at *
    simp only [List.map_cons, mapOptionList]
    rw [show "    ".data ++ quoteStr t ++ [','] =
      "    ".data ++ (quoteStr t ++ [',']) from by simp]
    rw [parseArrayItemLine_topic, ih]

/-- A topic element line is not the closing `]` line. -/
theorem isArrayCloseLine_topic (t : Str) :
    isArrayCloseLine ("    ".data ++ quoteStr t ++ [',']) = false := by
  unfold isArrayCloseLine
  rw [show "    ".data ++ quoteStr t ++ [','] =
    ' ' :: (' ' :: (' ' :: (' ' :: (quoteStr t ++ [','])))) from by simp]
  rw [trimWs_cons_ws _ _ (by decide), trimWs_cons_ws _ _ (by decide),
    trimWs_cons_ws _ _ (by decide), trimWs_cons_ws _ _ (by decide),
    trimWs_quote_comma]
  simp [quoteStr]

instance : Nonempty (List (Str × TomlVal)) := ⟨[]⟩

instance : Nonempty (List (Str × List (Str × TomlVal))) := ⟨[]⟩

theorem parseKVs_nil : parseKVs [] = some [] := by
  unfold parseKVs
  rfl

theorem parseKVs_blank (l : Str) (ls : List Str) (h : isBlankLine l = true) :
    parseKVs (l :: ls) = parseKVs ls := by
  conv_lhs => unfold parseKVs
  simp [h]

theorem parseKVs_kv (l : Str) (ls : List Str) (k v : Str) (tv : TomlVal)
    (hb : isBlankLine l = false)
    (hs : splitAtFirstEq l = some (k, v))
    (hnb : ¬ trimWs v = ['['])
    (hv : parseValueToken (trimWs v) = some tv) :
    parseKVs (l :: ls) =
      match parseKVs ls with
      | some kvs => some ((trimWs k, tv) :: kvs)
      | none => none := by
  conv_lhs => unfold parseKVs
  simp [hb, hs, hnb, hv]

theorem parseKVs_arr (l k v : Str) (items : List Str) (closeLine : Str)
    (rest : List Str) (ts : List Str)
    (hb : isBlankLine l = false)
    (hs : splitAtFirstEq l = some (k, v))
    (hbr : trimWs v = ['['])
    (hni : ∀ x ∈ items, isArrayCloseLine x = false)
    (hcl : isArrayCloseLine closeLine = true)
    (hmap : mapOptionList parseArrayItemLine items = some ts) :
    parseKVs (l :: (items ++ closeLine :: rest)) =
      match parseKVs rest with
      | some kvs => some ((trimWs k, TomlVal.vArr ts) :: kvs)
      | none => none := by
  have hbound := takeWhile_dropWhile_boundary (fun x => ! isArrayCloseLine x)
    items closeLine rest (by intro x hx; simp [hni x hx]) (by simp [hcl])
  conv_lhs => unfold parseKVs
  simp only [hb, Bool.false_eq_true, if_false, hs, hbr, if_pos, hbound.1, hmap]
  split
  · next heq =>
    rw [hbound.2] at heq
    simp at heq
  · next heq =>
    rw [hbound.2] at heq
    injection heq with h1 h2
    subst h2
    cases parseKVs rest <;> rfl

theorem parseTables_nil : parseTables [] = some [] := by
  unfold parseTables
  rfl

theorem parseTables_cons (hdr name : Str) (body : List Str) (next : Str)
    (after : List Str)
    (hh : parseHeaderLine hdr = some name)
    (hbn : isBlankLine hdr = false)
    (hbody : ∀ x ∈ body, isHeaderLine x = false)
    (hnext : isHeaderLine next = true) :
    parseTables (hdr :: (body ++ next :: after)) =
      match parseKVs body, parseTables (next :: after) with
      | some kvs, some tbls => some ((name, kvs) :: tbls)
      | _, _ => none := by
  have hbound := takeWhile_dropWhile_boundary (fun x => ! isHeaderLine x)
    body next after (by intro x hx; simp [hbody x hx]) (by simp [hnext])
  have hdw : List.dropWhile isBlankLine (hdr :: (body ++ next :: after)) =
      hdr :: (body ++ next :: after) := by
    rw [List.dropWhile_cons, if_neg (by simp [hbn])]
  conv_lhs => unfold parseTables
  split
  · next heq =>
    rw [hdw] at heq
    simp at heq
  · next heq =>
    rw [hdw] at heq
    injection heq with h1 h2
    subst h1
    subst h2
    rw [hh, hbound.1, hbound.2]

theorem parseTables_last (hdr name : Str) (body : List Str)
    (hh : parseHeaderLine hdr = some name)
    (hbn : isBlankLine hdr = false)
    (hbody : ∀ x ∈ body, isHeaderLine x = false) :
    parseTables (hdr :: body) =
      match parseKVs body with
      | some kvs => some [(name, kvs)]
      | none => none := by
  have htake : body.takeWhile (fun x => ! isHeaderLine x) = body := by
    rw [List.takeWhile_eq_self_iff]
    intro x hx
    simp [hbody x hx]
  have hdrop : body.dropWhile (fun x => ! isHeaderLine x) = [] := by
    rw [List.dropWhile_eq_nil_iff]
    intro x hx
    simp [hbody x hx]
  have hdw : List.dropWhile isBlankLine (hdr :: body) = hdr :: body := by
    rw [List.dropWhile_cons, if_neg (by simp [hbn])]
  conv_lhs => unfold parseTables
  split
  · next heq =>
    rw [hdw] at heq
    simp at heq
  · next heq =>
    rw [hdw] at heq
    injection heq with h1 h2
    subst h1
    subst h2
    rw [hh, htake, hdrop]
    simp only [parseTables_nil]
    cases parseKVs body <;> rfl

theorem trimWs_quote (s : Str) : trimWs (quoteStr s) = quoteStr s := by
  show trimWs ('"' :: (escape s ++ ['"'])) = _
  rw [trimWs_eq_self _ _ _ (by decide) (by decide)]
  rfl

theorem no_newline_quote (s : Str) : '\n' ∉ quoteStr s := by
  intro h
  rw [show quoteStr s = '"' :: (escape s ++ ['"']) from rfl] at h
  rw [List.mem_cons] at h
  rcases h with h | h
  · exact absurd h (by decide)
  · rcases List.mem_append.mp h with h | h
    · exact mem_escape_ne_newline s '\n' h rfl
    · simp at h

theorem no_newline_kv (k v : Str) (hk : '\n' ∉ k) (hv : '\n' ∉ v) :
    '\n' ∉ kvLine k v := by
  intro h
  unfold kvLine at h
  rcases List.mem_append.mp h with h | h
  · rcases List.mem_append.mp h with h | h
    · exact hk h
    · simp at h
  · exact hv h

theorem no_newline_renderNat (n : Nat) : '\n' ∉ renderNat n := by
  intro h
  have := renderNat_all_digits n '\n' h
  simp [isDigitCh] at this

/-- A `key = "string"` line parsed inside a table body. -/
theorem parseKVs_cons_quote (c : Char) (krest : Str) (s : Str) (ls : List Str)
    (hc : rustIsWhitespace c = false) (he : '=' ∉ (c :: krest)) :
    parseKVs (kvLine (c :: krest) (quoteStr s) :: ls) =
      match parseKVs ls with
      | some kvs => some ((trimWs ((c :: krest) ++ [' ']), TomlVal.vStr s) :: kvs)
      | none => none := by
  apply parseKVs_kv
  · rw [show kvLine (c :: krest) (quoteStr s) =
      c :: (krest ++ " = ".data ++ quoteStr s) from by simp [kvLine]]
    exact isBlankLine_cons _ _ hc
  · exact splitAtFirstEq_kvLine _ _ he
  · rw [trimWs_cons_ws _ _ (by decide), trimWs_quote]
    simp [quoteStr]
  · rw [trimWs_cons_ws _ _ (by decide), trimWs_quote]
    exact parseValueToken_quote s

/-- A `key = 1234` line parsed inside a table body. -/
theorem parseKVs_cons_num (c : Char) (krest : Str) (n : Nat) (ls : List Str)
    (hc : rustIsWhitespace c = false) (he : '=' ∉ (c :: krest)) :
    parseKVs (kvLine (c :: krest) (renderNat n) :: ls) =
      match parseKVs ls with
      | some kvs => some ((trimWs ((c :: krest) ++ [' ']), TomlVal.vInt n) :: kvs)
      | none => none := by
  have htr : trimWs (renderNat n) = renderNat n :=
    trimWs_eq_self_of_all _ (fun x hx => not_ws_of_digit x (renderNat_all_digits n x hx))
  apply parseKVs_kv
  · rw [show kvLine (c :: krest) (renderNat n) =
      c :: (krest ++ " = ".data ++ renderNat n) from by simp [kvLine]]
    exact isBlankLine_cons _ _ hc
  · exact splitAtFirstEq_kvLine _ _ he
  · rw [trimWs_cons_ws _ _ (by decide), htr]
    intro hh
    have := renderNat_all_digits n '[' (by rw [hh]; simp)
    simp [isDigitCh] at this
  · rw [trimWs_cons_ws _ _ (by decide), htr]
    exact parseValueToken_num n

/-- A `key = [` line opening a pretty-printed topics array. -/
theorem parseKVs_cons_topics (c : Char) (krest : Str) (ts : List Str)
    (ls : List Str)
    (hc : rustIsWhitespace c = false) (he : '=' ∉ (c :: krest)) :
    parseKVs (kvLine (c :: krest) "[".data :: (topicsLines ts ++ ("]".data :: ls))) =
      match parseKVs ls with
      | some kvs => some ((trimWs ((c :: krest) ++ [' ']), TomlVal.vArr ts) :: kvs)
      | none => none := by
  apply parseKVs_arr
  · rw [show kvLine (c :: krest) "[".data =
      c :: (krest ++ " = ".data ++ "[".data) from by simp [kvLine]]
    exact isBlankLine_cons _ _ hc
  · exact splitAtFirstEq_kvLine _ _ he
  · rw [trimWs_cons_ws _ _ (by decide)]
    decide
  · intro x hx
    obtain ⟨t, _, ht⟩ := List.mem_map.mp hx
    rw [← ht]
    exact isArrayCloseLine_topic t
  · decide
  · exact mapOptionList_topicsLines ts

/-- An inline-`[]` `key = []` line parsed inside a table body. -/
theorem parseKVs_cons_empty_arr (c : Char) (krest : Str) (ls : List Str)
    (hc : rustIsWhitespace c = false) (he : '=' ∉ (c :: krest)) :
    parseKVs (kvLine (c :: krest) "[]".data :: ls) =
      match parseKVs ls with
      | some kvs => some ((trimWs ((c :: krest) ++ [' ']), TomlVal.vArr []) :: kvs)
      | none => none := by
  apply parseKVs_kv
  · rw [show kvLine (c :: krest) "[]".data =
      c :: (krest ++ " = ".data ++ "[]".data) from by simp [kvLine]]
    exact isBlankLine_cons _ _ hc
  · exact splitAtFirstEq_kvLine _ _ he
  · rw [trimWs_cons_ws _ _ (by decide)]
    decide
  · rw [trimWs_cons_ws _ _ (by decide)]
    decide

theorem isHeaderLine_kv (c : Char) (krest v : Str) (h : ¬ c = '[') :
    isHeaderLine (kvLine (c :: krest) v) = false := by
  rw [show kvLine (c :: krest) v = c :: (krest ++ " = ".data ++ v) from by
    simp [kvLine]]
  exact isHeaderLine_cons _ _ h

theorem isHeaderLine_topicline (t : Str) :
    isHeaderLine ("    ".data ++ quoteStr t ++ [',']) = false := by
  rw [show "    ".data ++ quoteStr t ++ [','] =
    ' ' :: ("   ".data ++ quoteStr t ++ [',']) from by simp]
  exact isHeaderLine_cons _ _ (by decide)

theorem no_newline_topicline (t : Str) :
    '\n' ∉ "    ".data ++ quoteStr t ++ [','] := by
  intro h
  rcases List.mem_append.mp h with h | h
  · rcases List.mem_append.mp h with h | h
    · simp at h
    · exact no_newline_quote t h
  · simp at h

/-- No serialized line contains a raw newline. -/
theorem no_newline_serialize_lines (cfg : AppConfig) :
    ∀ l ∈ serialize_lines cfg, '\n' ∉ l := by
  intro l hl
  unfold serialize_lines at hl
  rw [List.mem_append, List.mem_append] at hl
  rcases hl with (hl | hl) | hl
  · simp only [List.mem_cons, List.not_mem_nil, or_false] at hl
    rcases hl with rfl | rfl | rfl | rfl
    · decide
    · exact no_newline_kv _ _ (by decide) (no_newline_quote _)
    · exact no_newline_kv _ _ (by decide) (no_newline_quote _)
    · exact no_newline_kv _ _ (by decide) (no_newline_quote _)
  · split at hl
    · simp only [List.mem_cons, List.not_mem_nil, or_false] at hl
      subst hl
      exact no_newline_kv _ _ (by decide) (by decide)
    · rw [List.mem_append] at hl
      rcases hl with hl | hl
      · simp only [List.mem_cons] at hl
        rcases hl with rfl | hl
        · exact no_newline_kv _ _ (by decide) (by decide)
        · obtain ⟨t, _, ht⟩ := List.mem_map.mp hl
          rw [← ht]
          exact no_newline_topicline t
      · simp only [List.mem_cons, List.not_mem_nil, or_false] at hl
        subst hl
        decide
  · simp only [List.mem_cons, List.not_mem_nil, or_false] at hl
    rcases hl with rfl | rfl | rfl | rfl | rfl | rfl | rfl | rfl
    · decide
    · decide
    · exact no_newline_kv _ _ (by decide) (no_newline_quote _)
    · exact no_newline_kv _ _ (by decide) (no_newline_renderNat _)
    · decide
    · decide
    · exact no_newline_kv _ _ (by decide) (no_newline_quote _)
    · exact no_newline_kv _ _ (by decide) (no_newline_quote _)

/-! ## Claim C2 — serialize/deserialize round-trip -/

/-- The canonical serialized document deserializes back to the original
configuration. -/
theorem toml_roundtrip (cfg : AppConfig) :
    toml_from_str (toml_to_string_pretty cfg) = some cfg := by
  have hblank1 : parseKVs [([] : Str)] = some [] := by
    rw [parseKVs_blank _ _ (by decide), parseKVs_nil]
  unfold toml_from_str toml_to_string_pretty
  rw [splitLines_joinLines _ (no_newline_serialize_lines cfg)]
  by_cases htop : cfg.site.topics.isEmpty = true
  · have hts : cfg.site.topics = [] := by
      rwa [List.isEmpty_iff] at htop
    have hshape : serialize_lines cfg ++ [[]] =
        "[site]".data ::
          ((kvLine ('n' :: "ame".data) (quoteStr cfg.site.name) ::
            kvLine ('a' :: "uthor".data) (quoteStr cfg.site.author) ::
            kvLine ('t' :: "emplate".data) (quoteStr cfg.site.template) ::
            kvLine ('t' :: "opics".data) "[]".data :: [[]]) ++
          "[server]".data ::
            ((kvLine ('b' :: "ind".data) (quoteStr cfg.server.bind) ::
              kvLine ('p' :: "ort".data) (renderNat cfg.server.port.val) :: [[]]) ++
            "[docpaths]".data ::
              (kvLine ('t' :: "emplates".data) (quoteStr cfg.docpaths.templates) ::
               kvLine ('w' :: "ebroot".data) (quoteStr cfg.docpaths.webroot) :: [[]]))) := by
      simp [serialize_lines, htop, kvLine]
    rw [hshape]
    rw [parseTables_cons "[site]".data "site".data _ "[server]".data _ (by decide) (by decide)
        (by intro x hx
            simp only [List.mem_cons, List.not_mem_nil, or_false] at hx
            rcases hx with rfl | rfl | rfl | rfl | rfl
            · exact isHeaderLine_kv _ _ _ (by decide)
            · exact isHeaderLine_kv _ _ _ (by decide)
            · exact isHeaderLine_kv _ _ _ (by decide)
            · exact isHeaderLine_kv _ _ _ (by decide)
            · decide)
        (by decide)]
    rw [parseTables_cons "[server]".data "server".data _ "[docpaths]".data _ (by decide) (by decide)
        (by intro x hx
            simp only [List.mem_cons, List.not_mem_nil, or_false] at hx
            rcases hx with rfl | rfl | rfl
            · exact isHeaderLine_kv _ _ _ (by decide)
            · exact isHeaderLine_kv _ _ _ (by decide)
            · decide)
        (by decide)]
    rw [parseTables_last "[docpaths]".data "docpaths".data _ (by decide) (by decide)
        (by intro x hx
            simp only [List.mem_cons, List.not_mem_nil, or_false] at hx
            rcases hx with rfl | rfl | rfl
            · exact isHeaderLine_kv _ _ _ (by decide)
            · exact isHeaderLine_kv _ _ _ (by decide)
            · decide)]
    rw [parseKVs_cons_quote 'n' "ame".data _ _ (by decide) (by decide),
        parseKVs_cons_quote 'a' "uthor".data _ _ (by decide) (by decide),
        parseKVs_cons_quote 't' "emplate".data _ _ (by decide) (by decide),
        parseKVs_cons_empty_arr 't' "opics".data _ (by decide) (by decide),
        parseKVs_cons_quote 'b' "ind".data _ _ (by decide) (by decide),
        parseKVs_cons_num 'p' "ort".data _ _ (by decide) (by decide),
        parseKVs_cons_quote 't' "emplates".data _ _ (by decide) (by decide),
        parseKVs_cons_quote 'w' "ebroot".data _ _ (by decide) (by decide)]
    simp only [hblank1]
    simp [decodeAppConfig, decodeSite, decodeServer, decodeDocPaths, lookupKey,
      asStr, asArr, asU16,
      show trimWs ['n','a','m','e',' '] = "name".data from by decide,
      show trimWs ['a','u','t','h','o','r',' '] = "author".data from by decide,
      show trimWs ['t','e','m','p','l','a','t','e',' '] = "template".data from by decide,
      show trimWs ['t','o','p','i','c','s',' '] = "topics".data from by decide,
      show trimWs ['b','i','n','d',' '] = "bind".data from by decide,
      show trimWs ['p','o','r','t',' '] = "port".data from by decide,
      show trimWs ['t','e','m','p','l','a','t','e','s',' '] = "templates".data from by decide,
      show trimWs ['w','e','b','r','o','o','t',' '] = "webroot".data from by decide,
      hts]
    rw [← hts]
  · have hshape : serialize_lines cfg ++ [[]] =
        "[site]".data ::
          ((kvLine ('n' :: "ame".data) (quoteStr cfg.site.name) ::
            kvLine ('a' :: "uthor".data) (quoteStr cfg.site.author) ::
            kvLine ('t' :: "emplate".data) (quoteStr cfg.site.template) ::
            kvLine ('t' :: "opics".data) "[".data ::
              (topicsLines cfg.site.topics ++ ("]".data :: [[]]))) ++
          "[server]".data ::
            ((kvLine ('b' :: "ind".data) (quoteStr cfg.server.bind) ::
              kvLine ('p' :: "ort".data) (renderNat cfg.server.port.val) :: [[]]) ++
            "[docpaths]".data ::
              (kvLine ('t' :: "emplates".data) (quoteStr cfg.docpaths.templates) ::
               kvLine ('w' :: "ebroot".data) (quoteStr cfg.docpaths.webroot) :: [[]]))) := by
      simp [serialize_lines, htop, kvLine, topicsLines]
    rw [hshape]
    rw [parseTables_cons "[site]".data "site".data _ "[server]".data _ (by decide) (by decide)
        (by intro x hx
            simp only [List.mem_cons, List.mem_append, List.not_mem_nil, or_false] at hx
            rcases hx with rfl | rfl | rfl | rfl | hx | rfl | rfl
            · exact isHeaderLine_kv _ _ _ (by decide)
            · exact isHeaderLine_kv _ _ _ (by decide)
            · exact isHeaderLine_kv _ _ _ (by decide)
            · exact isHeaderLine_kv _ _ _ (by decide)
            · obtain ⟨t, _, ht⟩ := List.mem_map.mp hx
              rw [← ht]
              exact isHeaderLine_topicline t
            · decide
            · decide)
        (by decide)]
    rw [parseTables_cons "[server]".data "server".data _ "[docpaths]".data _ (by decide) (by decide)
        (by intro x hx
            simp only [List.mem_cons, List.not_mem_nil, or_false] at hx
            rcases hx with rfl | rfl | rfl
            · exact isHeaderLine_kv _ _ _ (by decide)
            · exact isHeaderLine_kv _ _ _ (by decide)
            · decide)
        (by decide)]
    rw [parseTables_last "[docpaths]".data "docpaths".data _ (by decide) (by decide)
        (by intro x hx
            simp only [List.mem_cons, List.not_mem_nil, or_false] at hx
            rcases hx with rfl | rfl | rfl
            · exact isHeaderLine_kv _ _ _ (by decide)
            · exact isHeaderLine_kv _ _ _ (by decide)
            · decide)]
    rw [parseKVs_cons_quote 'n' "ame".data _ _ (by decide) (by decide),
        parseKVs_cons_quote 'a' "uthor".data _ _ (by decide) (by decide),
        parseKVs_cons_quote 't' "emplate".data _ _ (by decide) (by decide),
        parseKVs_cons_topics 't' "opics".data _ _ (by decide) (by decide),
        parseKVs_cons_quote 'b' "ind".data _ _ (by decide) (by decide),
        parseKVs_cons_num 'p' "ort".data _ _ (by decide) (by decide),
        parseKVs_cons_quote 't' "emplates".data _ _ (by decide) (by decide),
        parseKVs_cons_quote 'w' "ebroot".data _ _ (by decide) (by decide)]
    simp only [hblank1]
    simp [decodeAppConfig, decodeSite, decodeServer, decodeDocPaths, lookupKey,
      asStr, asArr, asU16,
      show trimWs ['n','a','m','e',' '] = "name".data from by decide,
      show trimWs ['a','u','t','h','o','r',' '] = "author".data from by decide,
      show trimWs ['t','e','m','p','l','a','t','e',' '] = "template".data from by decide,
      show trimWs ['t','o','p','i','c','s',' '] = "topics".data from by decide,
      show trimWs ['b','i','n','d',' '] = "bind".data from by decide,
      show trimWs ['p','o','r','t',' '] = "port".data from by decide,
      show trimWs ['t','e','m','p','l','a','t','e','s',' '] = "templates".data from by decide,
      show trimWs ['w','e','b','r','o','o','t',' '] = "webroot".data from by decide,
      Fin.is_lt]

/-- Claim C2: for every `AppConfig` value `cfg` (validity — `port` a
`u16` — is built into the type), deserializing the document produced by
serializing `cfg` yields `cfg` again: both for the pure
serialize→deserialize composition and through the on-disk composition
`AppConfig::write` (via `str_to_ro_file` on a fresh destination) followed
by `AppConfig::from_path`. -/
theorem serialize_deserialize_roundtrip (cfg : AppConfig) :
    AppConfig.from_path (some (str_to_ro_file (toml_to_string_pretty cfg) none)) =
      Except.ok cfg ∧
    toml_from_str (toml_to_string_pretty cfg) = some cfg := by
  have hrt := toml_roundtrip cfg
  refine ⟨?_, hrt⟩
  unfold AppConfig.from_path
  rw [str_to_ro_file_none, endsNewline_toml]
  simp [hrt]

/-! ## Claim C8 — schema strictness of `from_path` (corrected: unknown fields are ignored) -/

theorem lookupKey_cons_ne {α : Type} (k2 k : Str) (v : α)
    (rest : List (Str × α)) (h : ¬ k2 = k) :
    lookupKey ((k2, v) :: rest) k = lookupKey rest k := by
  conv_lhs => unfold lookupKey
  rw [if_neg h]

/-- A hand-edited configuration document containing the unknown field
`extra` inside `[site]`. -/
def extraFieldDoc : Str :=
  ("[site]\nname = \"Site Name\"\nauthor = \"Author\"\ntemplate = \"default.tmpl\"\nextra = \"ignored\"\ntopics = []\n\n[server]\nbind = \"0.0.0.0\"\nport = 9090\n\n[docpaths]\ntemplates = \"/b/site/templates\"\nwebroot = \"/b/site/webroot\"\n").data

/-- The configuration the unknown-field document decodes to. -/
def extraFieldConfig : AppConfig :=
  { site := { name := "Site Name".data, author := "Author".data,
              template := "default.tmpl".data, topics := [] },
    server := { bind := "0.0.0.0".data, port := ⟨9090, by decide⟩ },
    docpaths := { templates := "/b/site/templates".data,
                  webroot := "/b/site/webroot".data } }

/-- The unknown-field document is accepted by `from_path` (the unknown
field is silently skipped, `serde`'s default). -/
theorem extra_doc_parses :
    AppConfig.from_path (some extraFieldDoc) = Except.ok extraFieldConfig := by
  show (match toml_from_str extraFieldDoc with
        | some cfg => Except.ok cfg
        | none => Except.error "failed to parse TOML".data) = Except.ok extraFieldConfig
  unfold toml_from_str
  rw [show splitLines extraFieldDoc =
    ["[site]".data,
     "name = \"Site Name\"".data,
     "author = \"Author\"".data,
     "template = \"default.tmpl\"".data,
     "extra = \"ignored\"".data,
     "topics = []".data,
     [],
     "[server]".data,
     "bind = \"0.0.0.0\"".data,
     "port = 9090".data,
     [],
     "[docpaths]".data,
     "templates = \"/b/site/templates\"".data,
     "webroot = \"/b/site/webroot\"".data,
     []] from by decide]
  rw [show (["[site]".data,
     "name = \"Site Name\"".data,
     "author = \"Author\"".data,
     "template = \"default.tmpl\"".data,
     "extra = \"ignored\"".data,
     "topics = []".data,
     [],
     "[server]".data,
     "bind = \"0.0.0.0\"".data,
     "port = 9090".data,
     [],
     "[docpaths]".data,
     "templates = \"/b/site/templates\"".data,
     "webroot = \"/b/site/webroot\"".data,
     ([] : Str)] : List Str) =
    "[site]".data ::
      (["name = \"Site Name\"".data,
        "author = \"Author\"".data,
        "template = \"default.tmpl\"".data,
        "extra = \"ignored\"".data,
        "topics = []".data,
        []] ++
      "[server]".data ::
        (["bind = \"0.0.0.0\"".data,
          "port = 9090".data,
          []] ++
        "[docpaths]".data ::
          ["templates = \"/b/site/templates\"".data,
           "webroot = \"/b/site/webroot\"".data,
           []])) from by simp]
  rw [parseTables_cons "[site]".data "site".data _ "[server]".data _
    (by decide) (by decide) (by decide) (by decide)]
  rw [parseTables_cons "[server]".data "server".data _ "[docpaths]".data _
    (by decide) (by decide) (by decide) (by decide)]
  rw [parseTables_last "[docpaths]".data "docpaths".data _
    (by decide) (by decide) (by decide)]
  rw [parseKVs_kv "name = \"Site Name\"".data _ "name ".data " \"Site Name\"".data
    (TomlVal.vStr "Site Name".data) (by decide) (by decide) (by decide) (by decide)]
  rw [parseKVs_kv "author = \"Author\"".data _ "author ".data " \"Author\"".data
    (TomlVal.vStr "Author".data) (by decide) (by decide) (by decide) (by decide)]
  rw [parseKVs_kv "template = \"default.tmpl\"".data _ "template ".data " \"default.tmpl\"".data
    (TomlVal.vStr "default.tmpl".data) (by decide) (by decide) (by decide) (by decide)]
  rw [parseKVs_kv "extra = \"ignored\"".data _ "extra ".data " \"ignored\"".data
    (TomlVal.vStr "ignored".data) (by decide) (by decide) (by decide) (by decide)]
  rw [parseKVs_kv "topics = []".data _ "topics ".data " []".data
    (TomlVal.vArr []) (by decide) (by decide) (by decide) (by decide)]
  rw [parseKVs_kv "bind = \"0.0.0.0\"".data _ "bind ".data " \"0.0.0.0\"".data
    (TomlVal.vStr "0.0.0.0".data) (by decide) (by decide) (by decide) (by decide)]
  rw [parseKVs_kv "port = 9090".data _ "port ".data " 9090".data
    (TomlVal.vInt 9090) (by decide) (by decide) (by decide) (by decide)]
  rw [parseKVs_kv "templates = \"/b/site/templates\"".data _ "templates ".data
    " \"/b/site/templates\"".data (TomlVal.vStr "/b/site/templates".data)
    (by decide) (by decide) (by decide) (by decide)]
  rw [parseKVs_kv "webroot = \"/b/site/webroot\"".data _ "webroot ".data
    " \"/b/site/webroot\"".data (TomlVal.vStr "/b/site/webroot".data)
    (by decide) (by decide) (by decide) (by decide)]
  rw [parseKVs_blank _ _ (by decide), parseKVs_nil]
  rfl

/-- Any missing required field is a decode failure: helper lemmas, one
per structure. -/
theorem decodeSite_none (kvs : List (Str × TomlVal))
    (h : lookupKey kvs "name".data = none ∨ lookupKey kvs "author".data = none ∨
      lookupKey kvs "template".data = none ∨ lookupKey kvs "topics".data = none) :
    decodeSite kvs = none := by
  unfold decodeSite
  rcases h with h | h | h | h
  · rw [h]
    rfl
  · rw [h]
    cases lookupKey kvs "name".data >>= asStr <;> rfl
  · rw [h]
    cases lookupKey kvs "name".data >>= asStr <;>
      cases lookupKey kvs "author".data >>= asStr <;> rfl
  · rw [h]
    cases lookupKey kvs "name".data >>= asStr <;>
      cases lookupKey kvs "author".data >>= asStr <;>
        cases lookupKey kvs "template".data >>= asStr <;> rfl

theorem decodeServer_none (kvs : List (Str × TomlVal))
    (h : lookupKey kvs "bind".data = none ∨ lookupKey kvs "port".data = none) :
    decodeServer kvs = none := by
  unfold decodeServer
  rcases h with h | h
  · rw [h]
    rfl
  · rw [h]
    cases lookupKey kvs "bind".data >>= asStr <;> rfl

theorem decodeDocPaths_none (kvs : List (Str × TomlVal))
    (h : lookupKey kvs "templates".data = none ∨ lookupKey kvs "webroot".data = none) :
    decodeDocPaths kvs = none := by
  unfold decodeDocPaths
  rcases h with h | h
  · rw [h]
    rfl
  · rw [h]
    cases lookupKey kvs "templates".data >>= asStr <;> rfl

theorem decodeAppConfig_none_site (tbls : List (Str × List (Str × TomlVal)))
    (h : (lookupKey tbls "site".data >>= fun kvs => decodeSite kvs) = none) :
    decodeAppConfig tbls = none := by
  unfold decodeAppConfig
  rw [h]

theorem decodeAppConfig_none_server (tbls : List (Str × List (Str × TomlVal)))
    (h : (lookupKey tbls "server".data >>= fun kvs => decodeServer kvs) = none) :
    decodeAppConfig tbls = none := by
  unfold decodeAppConfig
  rw [h]
  cases lookupKey tbls "site".data >>= fun kvs => decodeSite kvs <;> rfl

theorem decodeAppConfig_none_docpaths (tbls : List (Str × List (Str × TomlVal)))
    (h : (lookupKey tbls "docpaths".data >>= fun kvs => decodeDocPaths kvs) = none) :
    decodeAppConfig tbls = none := by
  unfold decodeAppConfig
  rw [h]
  cases lookupKey tbls "site".data >>= fun kvs => decodeSite kvs <;>
    cases lookupKey tbls "server".data >>= fun kvs => decodeServer kvs <;> rfl

/-- Claim C8 as amended: `from_path` fails with a parse error whenever a
required field of the schema is missing — a missing `site`/`server`/
`docpaths` table, or any missing field inside one of them (`name`,
`author`, `template`, `topics`, `bind`, `port`, `templates`, `webroot`);
fields are never silently defaulted.  Unknown fields, however, are
silently skipped at every level, not an error: the `serde` derives carry
no `deny_unknown_fields`, so a document that is the valid schema plus an
extra field deserializes successfully. -/
theorem from_path_schema_strict :
    (∀ tbls : List (Str × List (Str × TomlVal)),
      lookupKey tbls "site".data = none ∨ lookupKey tbls "server".data = none ∨
        lookupKey tbls "docpaths".data = none →
      decodeAppConfig tbls = none) ∧
    (∀ (tbls : List (Str × List (Str × TomlVal))) (siteKvs : List (Str × TomlVal)),
      lookupKey tbls "site".data = some siteKvs →
      (lookupKey siteKvs "name".data = none ∨ lookupKey siteKvs "author".data = none ∨
        lookupKey siteKvs "template".data = none ∨ lookupKey siteKvs "topics".data = none) →
      decodeAppConfig tbls = none) ∧
    (∀ (tbls : List (Str × List (Str × TomlVal))) (serverKvs : List (Str × TomlVal)),
      lookupKey tbls "server".data = some serverKvs →
      (lookupKey serverKvs "bind".data = none ∨ lookupKey serverKvs "port".data = none) →
      decodeAppConfig tbls = none) ∧
    (∀ (tbls : List (Str × List (Str × TomlVal))) (docKvs : List (Str × TomlVal)),
      lookupKey tbls "docpaths".data = some docKvs →
      (lookupKey docKvs "templates".data = none ∨ lookupKey docKvs "webroot".data = none) →
      decodeAppConfig tbls = none) ∧
    (∀ (kvs : List (Str × TomlVal)) (k : Str) (v : TomlVal),
      ¬ k = "name".data → ¬ k = "author".data → ¬ k = "template".data →
      ¬ k = "topics".data →
      decodeSite ((k, v) :: kvs) = decodeSite kvs) ∧
    (∀ (kvs : List (Str × TomlVal)) (k : Str) (v : TomlVal),
      ¬ k = "bind".data → ¬ k = "port".data →
      decodeServer ((k, v) :: kvs) = decodeServer kvs) ∧
    (∀ (kvs : List (Str × TomlVal)) (k : Str) (v : TomlVal),
      ¬ k = "templates".data → ¬ k = "webroot".data →
      decodeDocPaths ((k, v) :: kvs) = decodeDocPaths kvs) ∧
    (∀ (tbls : List (Str × List (Str × TomlVal))) (k : Str) (t : List (Str × TomlVal)),
      ¬ k = "site".data → ¬ k = "server".data → ¬ k = "docpaths".data →
      decodeAppConfig ((k, t) :: tbls) = decodeAppConfig tbls) ∧
    AppConfig.from_path (some extraFieldDoc) = Except.ok extraFieldConfig := by
  refine ⟨?_, ?_, ?_, ?_, ?_, ?_, ?_, ?_, extra_doc_parses⟩
  · intro tbls h
    rcases h with h | h | h
    · exact decodeAppConfig_none_site tbls (by simp [h])
    · exact decodeAppConfig_none_server tbls (by simp [h])
    · exact decodeAppConfig_none_docpaths tbls (by simp [h])
  · intro tbls siteKvs hsite hmiss
    refine decodeAppConfig_none_site tbls ?_
    rw [hsite]
    exact decodeSite_none siteKvs hmiss
  · intro tbls serverKvs hserver hmiss
    refine decodeAppConfig_none_server tbls ?_
    rw [hserver]
    exact decodeServer_none serverKvs hmiss
  · intro tbls docKvs hdoc hmiss
    refine decodeAppConfig_none_docpaths tbls ?_
    rw [hdoc]
    exact decodeDocPaths_none docKvs hmiss
  · intro kvs k v h1 h2 h3 h4
    unfold decodeSite
    rw [lookupKey_cons_ne _ _ _ _ h1, lookupKey_cons_ne _ _ _ _ h2,
        lookupKey_cons_ne _ _ _ _ h3, lookupKey_cons_ne _ _ _ _ h4]
  · intro kvs k v h1 h2
    unfold decodeServer
    rw [lookupKey_cons_ne _ _ _ _ h1, lookupKey_cons_ne _ _ _ _ h2]
  · intro kvs k v h1 h2
    unfold decodeDocPaths
    rw [lookupKey_cons_ne _ _ _ _ h1, lookupKey_cons_ne _ _ _ _ h2]
  · intro tbls k t h1 h2 h3
    unfold decodeAppConfig
    rw [lookupKey_cons_ne _ _ _ _ h1, lookupKey_cons_ne _ _ _ _ h2,
        lookupKey_cons_ne _ _ _ _ h3]

/-- Witness for claim C8's amended statement, one concrete instance per
missing-field direction: a document without a `[docpaths]` table, a
`[site]` table without `name`, a `[server]` table without `port`, and a
`[docpaths]` table without `webroot` are all rejected. -/
theorem from_path_schema_strict_witness :
    decodeAppConfig [("site".data, [("author".data, TomlVal.vStr "a".data)]),
      ("server".data, [])] = none ∧
    decodeAppConfig [("site".data, [("author".data, TomlVal.vStr "a".data)])] = none ∧
    decodeAppConfig [("server".data, [("bind".data, TomlVal.vStr "0.0.0.0".data)])] = none ∧
    decodeAppConfig [("docpaths".data,
      [("templates".data, TomlVal.vStr "/b/site/templates".data)])] = none :=
  ⟨from_path_schema_strict.1 _ (Or.inr (Or.inr (by decide))),
   from_path_schema_strict.2.1 _ [("author".data, TomlVal.vStr "a".data)]
     (by decide) (Or.inl (by decide)),
   from_path_schema_strict.2.2.1 _ [("bind".data, TomlVal.vStr "0.0.0.0".data)]
     (by decide) (Or.inr (by decide)),
   from_path_schema_strict.2.2.2.1 _
     [("templates".data, TomlVal.vStr "/b/site/templates".data)]
     (by decide) (Or.inr (by decide))⟩

/-- Counterexample to claim C8 as stated: a document holding the full
schema plus the unknown field `extra` is *accepted* by `from_path`, not
rejected with a parse error. -/
theorem from_path_unknown_field_accepted :
    AppConfig.from_path (some extraFieldDoc) = Except.ok extraFieldConfig ∧
    ¬ AppConfig.from_path (some extraFieldDoc) =
        Except.error "failed to parse TOML".data := by
  refine ⟨extra_doc_parses, ?_⟩
  rw [extra_doc_parses]
  simp

end Arse
